import Mathlib

/-!
Verification of the interactive-geometry core of the plastic-part
configurator (stores, viewport transforms, hit testing, pointer-event
handlers and the CAD fallback generators), as a shallow embedding in
Lean 4.

Conventions of the embedding:
* JavaScript numbers are modelled as exact rationals.
* JavaScript Math.round rounds half toward positive infinity; it is
  modelled as the integer floor of t + 1/2.
* The hit test compares a Euclidean distance against a threshold t; for
  nonnegative radicands the source comparison sqrt d2 <= t is equivalent
  to 0 <= t and d2 <= t squared, which is how it is embedded (keeping
  everything inside the rationals and decidable).
* String generation in the CAD fallback is abstracted to the numeric
  payload that the strings serialize (vertex lists, hole comment data,
  polyline points, circle entities); header boilerplate is kept as plain
  fields.
-/

namespace PlasticConfig

/-- Shape family of a part, from the store. The store's form may also be
null (no form selected yet). -/
inductive FormType where
  | rectangle
  | circle
  | pentagon
  | custom
  | line
  | noForm
deriving DecidableEq

inductive ViewMode where
  | front
  | side
  | top
deriving DecidableEq

inductive DisplayMode where
  | mode2d
  | mode3d
deriving DecidableEq

/-- A point in part space (millimetres). -/
structure Point where
  x : ℚ
  y : ℚ
deriving DecidableEq

/-- A circular hole: id, centre position from the part's left and bottom
edges (mm) and diameter (mm). -/
structure Hole where
  id : String
  x : ℚ
  y : ℚ
  diameter : ℚ
deriving DecidableEq

/-- The part configuration held by the store (the richer of the two store
variants, which carries view state as well). Optional TS fields are
modelled with Option; the optional customPoints array is modelled as a
list (the source coalesces a missing array to the empty one). -/
structure PartConfig where
  form : FormType
  width : ℚ
  height : ℚ
  thickness : ℚ
  material : String
  color : Option String
  cornerRadius : ℚ
  holes : List Hole
  assemblyDetails : Option String
  customPoints : List Point
  showMeasurements : Bool
  viewMode : ViewMode
  displayMode : DisplayMode
deriving DecidableEq

/-- The whole store state: the config, the finalized flag of the custom
shape, and the saved custom shape restored when switching back to the
custom form. -/
structure StoreState where
  config : PartConfig
  customShapeFinalized : Bool
  savedCustomShape : Option (List Point × Bool)
deriving DecidableEq

/-- updateForm from the store: switching the active form clears the holes
list, saves or restores the custom-shape points, and leaves the remaining
config fields alone. -/
def updateForm (form : FormType) (state : StoreState) : StoreState :=
  let saved :=
    if form = FormType.custom then state.savedCustomShape
    else if state.config.form = FormType.custom ∧ state.config.customPoints ≠ [] then
      some (state.config.customPoints, state.customShapeFinalized)
    else state.savedCustomShape
  let restored : List Point × Bool :=
    if form = FormType.custom then
      match state.savedCustomShape with
      | some s => s
      | Option.none => ([], false)
    else ([], false)
  { config :=
      { state.config with
        form := form
        holes := []
        customPoints := restored.1 }
    customShapeFinalized := restored.2
    savedCustomShape := saved }

/-- addHole from the store: append the given hole to the holes list,
with no validation of any kind. -/
def addHole (hole : Hole) (state : StoreState) : StoreState :=
  { state with
    config := { state.config with holes := state.config.holes ++ [hole] } }

/-- removeAllHoles from the store. -/
def removeAllHoles (state : StoreState) : StoreState :=
  { state with config := { state.config with holes := [] } }

/-- A partial hole record, as passed to updateHole (TS Partial of Hole
restricted to the numeric fields actually updated by the app). -/
structure HoleUpdates where
  x : Option ℚ
  y : Option ℚ
  diameter : Option ℚ
deriving DecidableEq

/-- Spreading a partial record over a hole. -/
def applyUpdates (u : HoleUpdates) (h : Hole) : Hole :=
  { h with
    x := u.x.getD h.x
    y := u.y.getD h.y
    diameter := u.diameter.getD h.diameter }

/-- updateHole from the store: map over the holes list, merging the
updates into every hole whose id matches. -/
def updateHole (id : String) (u : HoleUpdates) (state : StoreState) : StoreState :=
  { state with
    config :=
      { state.config with
        holes := state.config.holes.map
          (fun h => if h.id = id then applyUpdates u h else h) } }

/-! ## Viewport transforms (InteractivePreview2D) -/

/-- Scale and pixel offsets computed by getScaleAndOffset in the
interactive preview. -/
structure ScaleOffset where
  scale : ℚ
  offsetX : ℚ
  offsetY : ℚ
deriving DecidableEq

/-- getScaleAndOffset: fit the part (width w, height h, in mm) into the
canvas (cw by ch pixels) leaving 40 pixels of padding on each edge, apply
the zoom factor, and centre the scaled part plus the pan offset. -/
def getScaleAndOffset (w h cw ch zoom panX panY : ℚ) : ScaleOffset :=
  let padding : ℚ := 40
  let scaleX := (cw - padding * 2) / w
  let scaleY := (ch - padding * 2) / h
  let baseScale := min scaleX scaleY
  let scale := baseScale * zoom
  { scale := scale
    offsetX := (cw - w * scale) / 2 + panX
    offsetY := (ch - h * scale) / 2 + panY }

/-- getPartCoordinates: canvas pixels back to part-space millimetres. -/
def getPartCoordinates (w h cw ch zoom panX panY canvasX canvasY : ℚ) : ℚ × ℚ :=
  let so := getScaleAndOffset w h cw ch zoom panX panY
  ((canvasX - so.offsetX) / so.scale, (canvasY - so.offsetY) / so.scale)

/-- The forward transform used whenever the preview projects a part-space
point to pixels (hole centres, drawing): offset plus millimetres times
scale. -/
def toPixelSpace (w h cw ch zoom panX panY mmX mmY : ℚ) : ℚ × ℚ :=
  let so := getScaleAndOffset w h cw ch zoom panX panY
  (so.offsetX + mmX * so.scale, so.offsetY + mmY * so.scale)

/-! ## Hit testing (findHoleAtPosition) -/

/-- The per-hole test of findHoleAtPosition: project the hole centre to
pixels and compare the Euclidean distance to the pointer against the
pixel radius plus the 5-pixel tolerance border. The source comparison
sqrt d2 <= t is embedded equivalently as 0 <= t and d2 <= t squared. -/
def holeHitTest (scale offsetX offsetY canvasX canvasY : ℚ) (hole : Hole) : Bool :=
  let holeX := offsetX + hole.x * scale
  let holeY := offsetY + hole.y * scale
  let holeRadius := hole.diameter / 2 * scale
  decide (0 ≤ holeRadius + 5 ∧
    (canvasX - holeX) ^ 2 + (canvasY - holeY) ^ 2 ≤ (holeRadius + 5) ^ 2)

/-- findHoleAtPosition: the first hole, in insertion order, whose
projected centre is within the tolerant radius of the pointer. -/
def findHoleAtPosition (holes : List Hole) (scale offsetX offsetY canvasX canvasY : ℚ) :
    Option Hole :=
  holes.find? (holeHitTest scale offsetX offsetY canvasX canvasY)

/-! ## Zoom (wheel handler and zoom buttons) -/

/-- handleWheel: a positive deltaY multiplies zoom by 0.9, otherwise by
1.1, and the result is clamped to the interval from 0.5 to 5. -/
def handleWheel (zoom deltaY : ℚ) : ℚ :=
  let delta : ℚ := if 0 < deltaY then 9 / 10 else 11 / 10
  max (1 / 2) (min 5 (zoom * delta))

/-- handleZoomIn: multiply by 1.2, clamped above at 5. -/
def handleZoomIn (zoom : ℚ) : ℚ := min 5 (zoom * (6 / 5))

/-- handleZoomOut: divide by 1.2, clamped below at 0.5. -/
def handleZoomOut (zoom : ℚ) : ℚ := max (1 / 2) (zoom / (6 / 5))

/-- One zoom interaction: a wheel event carrying its deltaY, or one of
the two zoom buttons. -/
inductive ZoomOp where
  | wheel (deltaY : ℚ)
  | zoomIn
  | zoomOut

/-- Apply one zoom interaction to the current zoom value. -/
def zoomStep (zoom : ℚ) : ZoomOp → ℚ
  | ZoomOp.wheel d => handleWheel zoom d
  | ZoomOp.zoomIn => handleZoomIn zoom
  | ZoomOp.zoomOut => handleZoomOut zoom

/-- The zoom reached from the initial zoom of 1 after a sequence of zoom
interactions. -/
def applyZoomOps (ops : List ZoomOp) : ℚ := ops.foldl zoomStep 1

/-! ## Hole drag and hole editor save -/

/-- JavaScript Math.round: round half toward positive infinity. -/
def jsRound (t : ℚ) : ℚ := ((⌊t + 1 / 2⌋ : ℤ) : ℚ)

/-- Rounding to one decimal, as done by the drag and click consumers
before writing coordinates into the store. -/
def roundToTenth (t : ℚ) : ℚ := jsRound (t * 10) / 10

/-- handleHoleDrag (the app's onHoleDrag consumer): round the dragged
coordinates to 0.1 mm and write them into the store. -/
def handleHoleDrag (holeId : String) (x y : ℚ) (state : StoreState) : StoreState :=
  updateHole holeId
    { x := some (roundToTenth x), y := some (roundToTenth y), diameter := Option.none }
    state

/-- The drag branch of handleMouseMove followed by its onHoleDrag
consumer: find the dragged hole, clamp the pointer's part-space position
to the interval from radius to dimension minus radius on both axes, and
write the (rounded) result into the store. partX and partY are the
part-space coordinates computed from the pointer minus the captured drag
offset; quantifying over all rationals covers every pointer position. -/
def handleMouseMoveDrag (draggingHole : String) (partX partY : ℚ) (state : StoreState) :
    StoreState :=
  match state.config.holes.find? (fun h => h.id == draggingHole) with
  | Option.none => state
  | some hole =>
    let radius := hole.diameter / 2
    let constrainedX := max radius (min (state.config.width - radius) partX)
    let constrainedY := max radius (min (state.config.height - radius) partY)
    handleHoleDrag draggingHole constrainedX constrainedY state

/-- handleSave of the hole editor modal: clamp the edited position to the
valid range for the edited diameter and return the updated hole. -/
def handleSave (partWidth partHeight : ℚ) (hole : Hole) (x y diameter : ℚ) : Hole :=
  let radius := diameter / 2
  { hole with
    x := max radius (min (partWidth - radius) x)
    y := max radius (min (partHeight - radius) y)
    diameter := diameter }

/-- The editor save pipeline: handleSave followed by the store write
(updateHole with the full updated hole). -/
def editorSaveStep (hole : Hole) (x y diameter : ℚ) (state : StoreState) : StoreState :=
  let updated := handleSave state.config.width state.config.height hole x y diameter
  updateHole hole.id
    { x := some updated.x, y := some updated.y, diameter := some updated.diameter }
    state

/-- The bounds invariant for a placed hole. -/
def holeInBounds (width height : ℚ) (h : Hole) : Prop :=
  h.diameter / 2 ≤ h.x ∧ h.x ≤ width - h.diameter / 2 ∧
  h.diameter / 2 ≤ h.y ∧ h.y ≤ height - h.diameter / 2

instance (width height : ℚ) (h : Hole) : Decidable (holeInBounds width height h) := by
  unfold holeInBounds; infer_instance

/-! ## Click handling -/

/-- What a click does besides possibly changing the store. -/
inductive ClickOutcome where
  | holeSelected (hole : Hole)
  | holeAdded (hole : Hole)
  | ignored
deriving DecidableEq

/-- handleCanvasClick (the app's onCanvasClick consumer): add a hole of
the default 8 mm diameter at the clicked position rounded to 0.1 mm. The
id comes from the clock; it is passed in as a parameter. -/
def handleCanvasClick (newId : String) (x y : ℚ) (state : StoreState) : StoreState × Hole :=
  let newHole : Hole := { id := newId, x := roundToTenth x, y := roundToTenth y, diameter := 8 }
  (addHole newHole state, newHole)

/-- handleClick of the interactive preview wired to its consumers: a
click on a hole selects it (opens the editor, store unchanged); a click
not on a hole and inside the part bounds adds a hole there; anything else
is ignored. -/
def handleClick (cw ch zoom panX panY canvasX canvasY : ℚ) (newId : String)
    (state : StoreState) : StoreState × ClickOutcome :=
  let w := state.config.width
  let h := state.config.height
  let so := getScaleAndOffset w h cw ch zoom panX panY
  match findHoleAtPosition state.config.holes so.scale so.offsetX so.offsetY canvasX canvasY with
  | some hole => (state, ClickOutcome.holeSelected hole)
  | Option.none =>
    let pc := getPartCoordinates w h cw ch zoom panX panY canvasX canvasY
    if 0 ≤ pc.1 ∧ pc.1 ≤ w ∧ 0 ≤ pc.2 ∧ pc.2 ≤ h then
      let r := handleCanvasClick newId pc.1 pc.2 state
      (r.1, ClickOutcome.holeAdded r.2)
    else (state, ClickOutcome.ignored)

/-! ## Canvas profile drawing (drawPart) -/

/-- A 2D canvas path command, as issued by drawPart. -/
inductive PathCmd where
  | moveTo (x y : ℚ)
  | lineTo (x y : ℚ)
  | arcTo (cx cy x y r : ℚ)
deriving DecidableEq

/-- The rounded-rectangle path built by drawPart for the Rectangle form
when cornerRadius is positive: the corner radius is taken from the config
as is, with no clamping. -/
def drawRoundedRectPath (width height r : ℚ) : List PathCmd :=
  [ PathCmd.moveTo r 0,
    PathCmd.lineTo (width - r) 0,
    PathCmd.arcTo width 0 width r r,
    PathCmd.lineTo width (height - r),
    PathCmd.arcTo width height (width - r) height r,
    PathCmd.lineTo r height,
    PathCmd.arcTo 0 height 0 (height - r) r,
    PathCmd.lineTo 0 r,
    PathCmd.arcTo 0 0 r 0 r ]

/-- Modelled from the spec: the corner radius the profile builder is
required to use, clamped to half the smaller dimension so the quarter
arcs never overlap (the source does not perform this clamp). -/
def specClampedCornerRadius (width height r : ℚ) : ℚ :=
  min r (min width height / 2)

/-- A drawn circle: centre and radius. -/
structure CircleSpec where
  centerX : ℚ
  centerY : ℚ
  radius : ℚ
deriving DecidableEq

/-- The circle drawn by the interactive preview for the Circle form, in
canvas pixels: centred on the scaled part, radius half the scaled width
(the height only positions the centre). -/
def interactivePreviewCircle (w h scale offsetX offsetY : ℚ) : CircleSpec :=
  { centerX := offsetX + w * scale / 2
    centerY := offsetY + h * scale / 2
    radius := w * scale / 2 }

/-- The front-view circle drawn by drawPart in Canvas, in part space
(the context is already scaled): radius half the smaller dimension. -/
def canvasFrontCircle (w h : ℚ) : CircleSpec :=
  { centerX := w / 2, centerY := h / 2, radius := min w h / 2 }

/-! ## CAD generation and its local fallback -/

/-- Metadata of a CAD export result. -/
structure CADMetadata where
  width : ℚ
  height : ℚ
  thickness : ℚ
  material : String
  holeCount : ℕ
  generatedAt : String
deriving DecidableEq

/-- The numeric payload of the fallback STEP file: the ISO-10303-21
header fields it interpolates, the eight box corner vertices written as
CARTESIAN_POINT entities, and the data of the one comment line emitted
per hole (diameter, x, y). -/
structure STEPContent where
  schema : String
  materialLabel : String
  boxVertices : List (ℚ × ℚ × ℚ)
  holeComments : List (ℚ × ℚ × ℚ)
deriving DecidableEq

/-- generateSTEPContent: the skeleton STEP payload for a config. -/
def generateSTEPContent (config : PartConfig) : STEPContent :=
  let w := config.width
  let h := config.height
  let t := config.thickness
  { schema := "CONFIG_CONTROL_DESIGN"
    materialLabel := config.material
    boxVertices :=
      [ (0, 0, 0), (w, 0, 0), (w, h, 0), (0, h, 0),
        (0, 0, t), (w, 0, t), (w, h, t), (0, h, t) ]
    holeComments := config.holes.map (fun hole => (hole.diameter, hole.x, hole.y)) }

/-- The numeric payload of the fallback DXF file: the LWPOLYLINE outline
vertices and one CIRCLE entity (centre, radius) per hole. -/
structure DXFContent where
  outline : List (ℚ × ℚ)
  circles : List ((ℚ × ℚ) × ℚ)
deriving DecidableEq

/-- generateDXFContent: outline of the width-by-height rectangle centred
at the origin, plus one circle per hole shifted by half the dimensions,
with radius half the diameter. -/
def generateDXFContent (config : PartConfig) : DXFContent :=
  let w := config.width
  let h := config.height
  { outline := [ (-w / 2, -h / 2), (w / 2, -h / 2), (w / 2, h / 2), (-w / 2, h / 2) ]
    circles := config.holes.map
      (fun hole => ((hole.x - w / 2, hole.y - h / 2), hole.diameter / 2)) }

/-- A CAD export result: the two file payloads and the metadata. -/
structure CADExportResult where
  stepFile : STEPContent
  dxfFile : DXFContent
  metadata : CADMetadata
deriving DecidableEq

/-- Outcome of the backend CAD request: success with a result, a non-2xx
response, or a network error. -/
inductive BackendOutcome where
  | ok (result : CADExportResult)
  | httpError (statusText : String)
  | networkError (message : String)

/-- generateCADFilesFallback: the client-side generator used when the
backend fails. The generation timestamp is passed in. -/
def generateCADFilesFallback (now : String) (config : PartConfig) : CADExportResult :=
  { stepFile := generateSTEPContent config
    dxfFile := generateDXFContent config
    metadata :=
      { width := config.width
        height := config.height
        thickness := config.thickness
        material := config.material
        holeCount := config.holes.length
        generatedAt := now } }

/-- generateCADFiles: return the backend result on success; on a non-2xx
response or a network error the catch block returns the local fallback
instead of throwing. -/
def generateCADFiles (backend : BackendOutcome) (now : String) (config : PartConfig) :
    CADExportResult :=
  match backend with
  | BackendOutcome.ok r => r
  | BackendOutcome.httpError _ => generateCADFilesFallback now config
  | BackendOutcome.networkError _ => generateCADFilesFallback now config

/-! ## Corner holes helper (OpeningsPanel) -/

/-- createCornerHoles: remove all holes, then add four holes at the given
distance from each edge, with the given opening size as diameter. The
timestamp used for the ids is passed in. -/
def createCornerHoles (timestamp : String) (distanceFromEdge openingSize : ℚ)
    (state : StoreState) : StoreState :=
  let w := state.config.width
  let h := state.config.height
  let s1 := removeAllHoles state
  let s2 := addHole
    { id := timestamp ++ "-tl", x := distanceFromEdge, y := distanceFromEdge,
      diameter := openingSize } s1
  let s3 := addHole
    { id := timestamp ++ "-tr", x := w - distanceFromEdge, y := distanceFromEdge,
      diameter := openingSize } s2
  let s4 := addHole
    { id := timestamp ++ "-bl", x := distanceFromEdge, y := h - distanceFromEdge,
      diameter := openingSize } s3
  addHole
    { id := timestamp ++ "-br", x := w - distanceFromEdge, y := h - distanceFromEdge,
      diameter := openingSize } s4

/-! ## Concrete fixtures for witnesses and counterexamples -/

/-- A concrete store state with the given dimensions and holes, used by
the concrete instances below. -/
def sampleState (w h : ℚ) (holes : List Hole) : StoreState :=
  { config :=
      { form := FormType.rectangle
        width := w
        height := h
        thickness := 5
        material := "PE 500"
        color := some "FFFFFF"
        cornerRadius := 0
        holes := holes
        assemblyDetails := Option.none
        customPoints := []
        showMeasurements := false
        viewMode := ViewMode.front
        displayMode := DisplayMode.mode2d }
    customShapeFinalized := false
    savedCustomShape := Option.none }

/-! ## Helper lemmas -/

/-- Rounding to a tenth moves a value up by at most one twentieth. -/
lemma roundToTenth_le_add (t : ℚ) : roundToTenth t ≤ t + 1 / 20 := by
  unfold roundToTenth jsRound
  have h2 : ((⌊t * 10 + 1 / 2⌋ : ℤ) : ℚ) ≤ t * 10 + 1 / 2 := Int.floor_le _
  linarith

/-- Rounding to a tenth moves a value down by less than one twentieth. -/
lemma sub_le_roundToTenth (t : ℚ) : t - 1 / 20 ≤ roundToTenth t := by
  unfold roundToTenth jsRound
  have h1 : t * 10 + 1 / 2 - 1 < ((⌊t * 10 + 1 / 2⌋ : ℤ) : ℚ) := Int.sub_one_lt_floor _
  linarith

/-- A successful find? splits the list at the first match. -/
lemma find?_first {α : Type} {p : α → Bool} :
    ∀ {l : List α} {a : α}, l.find? p = some a →
      ∃ l1 l2, l = l1 ++ a :: l2 ∧ (∀ b ∈ l1, p b = false) ∧ p a = true := by
  intro l
  induction l with
  | nil => intro a h; simp [List.find?] at h
  | cons x xs ih =>
    intro a h
    cases hx : p x with
    | true =>
      rw [List.find?_cons_of_pos _ hx, Option.some.injEq] at h
      subst h
      exact ⟨[], xs, rfl, by simp, hx⟩
    | false =>
      rw [List.find?_cons_of_neg _ (by simp [hx])] at h
      obtain ⟨l1, l2, rfl, hall, ha⟩ := ih h
      refine ⟨x :: l1, l2, rfl, ?_, ha⟩
      intro b hb
      rcases List.mem_cons.mp hb with rfl | hb1
      · exact hx
      · exact hall b hb1

/-- Every single zoom interaction keeps the zoom inside the clamp
interval. -/
lemma zoomStep_bounds (z : ℚ) (op : ZoomOp) (h1 : 1 / 2 ≤ z) (h2 : z ≤ 5) :
    1 / 2 ≤ zoomStep z op ∧ zoomStep z op ≤ 5 := by
  cases op with
  | wheel d =>
    unfold zoomStep handleWheel
    exact ⟨le_max_left _ _, max_le (by norm_num) (min_le_left _ _)⟩
  | zoomIn =>
    unfold zoomStep handleZoomIn
    exact ⟨le_min (by norm_num) (by linarith), min_le_left _ _⟩
  | zoomOut =>
    unfold zoomStep handleZoomOut
    refine ⟨le_max_left _ _, max_le (by norm_num) ?_⟩
    rw [div_le_iff₀ (by norm_num : (0 : ℚ) < 6 / 5)]
    linarith

/-- Folding any sequence of zoom interactions from a clamped zoom stays
clamped. -/
lemma foldl_zoomStep_bounds (ops : List ZoomOp) :
    ∀ z : ℚ, 1 / 2 ≤ z → z ≤ 5 →
      1 / 2 ≤ ops.foldl zoomStep z ∧ ops.foldl zoomStep z ≤ 5 := by
  induction ops with
  | nil => intro z h1 h2; exact ⟨h1, h2⟩
  | cons op rest ih =>
    intro z h1 h2
    have hb := zoomStep_bounds z op h1 h2
    rw [List.foldl_cons]
    exact ih (zoomStep z op) hb.1 hb.2

/-! ## Claims -/

/-- Claim C1: the viewport transform round-trips. For every part-space
point within the part bounds, every zoom in the clamp interval and every
pan offset, mapping to pixel space with the forward transform and back
with getPartCoordinates returns the point exactly (over exact rationals,
whenever the scale is nonzero). -/
theorem viewport_roundtrip (w h cw ch zoom panX panY mmX mmY : ℚ)
    (hx0 : 0 ≤ mmX) (hxw : mmX ≤ w) (hy0 : 0 ≤ mmY) (hyh : mmY ≤ h)
    (hz1 : 1 / 2 ≤ zoom) (hz2 : zoom ≤ 5)
    (hs : (getScaleAndOffset w h cw ch zoom panX panY).scale ≠ 0) :
    getPartCoordinates w h cw ch zoom panX panY
      (toPixelSpace w h cw ch zoom panX panY mmX mmY).1
      (toPixelSpace w h cw ch zoom panX panY mmX mmY).2 = (mmX, mmY) := by
  have key : ∀ o m : ℚ,
      (o + m * (getScaleAndOffset w h cw ch zoom panX panY).scale - o) /
        (getScaleAndOffset w h cw ch zoom panX panY).scale = m := by
    intro o m
    rw [add_sub_cancel_left, mul_div_assoc, div_self hs, mul_one]
  simp only [getPartCoordinates, toPixelSpace]
  exact Prod.ext (key _ _) (key _ _)

/-- Witness for C1 at the default configuration, the default canvas and
the part-space point at one hundred millimetres on each axis. -/
theorem viewport_roundtrip_witness :
    getPartCoordinates 440 600 600 450 1 0 0
      (toPixelSpace 440 600 600 450 1 0 0 100 100).1
      (toPixelSpace 440 600 600 450 1 0 0 100 100).2 = (100, 100) :=
  viewport_roundtrip 440 600 600 450 1 0 0 100 100 (by norm_num) (by norm_num)
    (by norm_num) (by norm_num) (by norm_num) (by norm_num)
    (by norm_num [getScaleAndOffset])

/-- Claim C4: a wheel event with positive delta multiplies the zoom by
0.9, one with negative delta by 1.1, each re-clamped to the interval from
0.5 to 5; and any finite sequence of wheel or button zoom interactions
starting from the initial zoom of 1 keeps the zoom inside that
interval. -/
theorem zoom_clamped :
    (∀ zoom deltaY : ℚ, 0 < deltaY →
        handleWheel zoom deltaY = max (1 / 2) (min 5 (zoom * (9 / 10)))) ∧
    (∀ zoom deltaY : ℚ, deltaY < 0 →
        handleWheel zoom deltaY = max (1 / 2) (min 5 (zoom * (11 / 10)))) ∧
    (∀ ops : List ZoomOp, 1 / 2 ≤ applyZoomOps ops ∧ applyZoomOps ops ≤ 5) := by
  refine ⟨?_, ?_, ?_⟩
  · intro z d hd
    unfold handleWheel
    rw [if_pos hd]
  · intro z d hd
    unfold handleWheel
    rw [if_neg (not_lt.mpr hd.le)]
  · intro ops
    exact foldl_zoomStep_bounds ops 1 (by norm_num) (by norm_num)

/-- Witness for C4: the wheel cases at deltas of one and minus one, and
the invariant after a single zoom-in press. -/
theorem zoom_clamped_witness :
    handleWheel 1 1 = max (1 / 2) (min 5 (1 * (9 / 10))) ∧
    handleWheel 1 (-1) = max (1 / 2) (min 5 (1 * (11 / 10))) ∧
    (1 / 2 ≤ applyZoomOps [ZoomOp.zoomIn] ∧ applyZoomOps [ZoomOp.zoomIn] ≤ 5) :=
  ⟨zoom_clamped.1 1 1 (by norm_num), zoom_clamped.2.1 1 (-1) (by norm_num),
   zoom_clamped.2.2 [ZoomOp.zoomIn]⟩

/-- Claim C7: findHoleAtPosition returns the first hole in insertion
order whose projected centre is within the tolerant pixel radius of the
pointer, and null when no hole is; in particular a hole at fifty
millimetres on each axis with diameter ten, at scale two, is hit exactly
within fifteen pixels of its projected centre. -/
theorem findHole_contract :
    (∀ (holes : List Hole) (scale ox oy px py : ℚ),
        (findHoleAtPosition holes scale ox oy px py = Option.none ↔
          ∀ h ∈ holes, holeHitTest scale ox oy px py h = false)) ∧
    (∀ (holes : List Hole) (scale ox oy px py : ℚ) (h : Hole),
        findHoleAtPosition holes scale ox oy px py = some h →
          ∃ l1 l2, holes = l1 ++ h :: l2 ∧
            (∀ g ∈ l1, holeHitTest scale ox oy px py g = false) ∧
            holeHitTest scale ox oy px py h = true) ∧
    (∀ ox oy px py : ℚ,
        (findHoleAtPosition [⟨"h1", 50, 50, 10⟩] 2 ox oy px py =
            some ⟨"h1", 50, 50, 10⟩ ↔
          (px - (ox + 100)) ^ 2 + (py - (oy + 100)) ^ 2 ≤ 225)) := by
  refine ⟨?_, ?_, ?_⟩
  · intro holes scale ox oy px py
    unfold findHoleAtPosition
    rw [List.find?_eq_none]
    constructor
    · intro ha h hmem
      simpa using ha h hmem
    · intro ha h hmem
      simp [ha h hmem]
  · intro holes scale ox oy px py h hfind
    exact find?_first hfind
  · intro ox oy px py
    unfold findHoleAtPosition List.find?
    cases hh : holeHitTest 2 ox oy px py ⟨"h1", 50, 50, 10⟩ with
    | true =>
      simp only [hh, Option.some.injEq]
      unfold holeHitTest at hh
      rw [decide_eq_true_eq] at hh
      constructor
      · intro _
        have h2 := hh.2
        norm_num at h2
        convert h2 using 2
      · intro _
        trivial
    | false =>
      simp only [hh]
      unfold holeHitTest at hh
      rw [decide_eq_false_iff_not] at hh
      push_neg at hh
      have h3 := hh (by norm_num)
      constructor
      · intro hcontra
        exact absurd hcontra (by simp)
      · intro hle
        exfalso
        apply absurd h3
        push_neg
        norm_num
        convert hle using 2

/-- Witness for C7: at scale two with zero offsets, a pointer fifteen
pixels to the right of the projected centre still hits the hole. -/
theorem findHole_contract_witness :
    findHoleAtPosition [⟨"h1", 50, 50, 10⟩] 2 0 0 115 100 =
      some ⟨"h1", 50, 50, 10⟩ :=
  (findHole_contract.2.2 0 0 115 100).mpr (by norm_num)

/-- Claim C2, counterexample: a drag step does not establish the bounds
invariant for every hole in the config. On a ten-by-ten part holding an
out-of-bounds hole a and a hole b of diameter 8.08, dragging b to the
part-space point at 4.04 on the x axis rounds the clamped coordinate down
to 4, below the radius 4.04, and leaves a untouched at five hundred; both
holes violate the invariant after the step. -/
theorem drag_invariant_counterexample :
    (handleMouseMoveDrag "b" (101 / 25) 5
        (sampleState 10 10 [⟨"a", 500, 500, 8⟩, ⟨"b", 5, 5, 202 / 25⟩])).config.holes =
      [⟨"a", 500, 500, 8⟩, ⟨"b", 4, 5, 202 / 25⟩] ∧
    ¬ holeInBounds 10 10 (⟨"a", 500, 500, 8⟩ : Hole) ∧
    ¬ holeInBounds 10 10 (⟨"b", 4, 5, 202 / 25⟩ : Hole) := by
  have hab : (("a" : String) == "b") = false := rfl
  have hbb : (("b" : String) == "b") = true := rfl
  refine ⟨?_, ?_, ?_⟩
  · norm_num [handleMouseMoveDrag, List.find?, hab, hbb, sampleState, handleHoleDrag,
      updateHole, applyUpdates, roundToTenth, jsRound]
    decide
  · norm_num [holeInBounds]
  · norm_num [holeInBounds]

/-- Claim C2 as amended: a drag step writes, for every hole whose id
matches the dragged one, the pointer's part-space position clamped to the
interval from radius to dimension minus radius and then rounded to a
tenth of a millimetre, which lies within one twentieth of a millimetre of
that interval whenever the dragged hole's diameter fits both dimensions;
an editor save writes the edited position clamped to that interval,
exactly inside it whenever the edited diameter fits both dimensions.
Holes whose id does not match are passed through unchanged (so they keep
whatever positions they already had). -/
theorem drag_and_save_clamp :
    (∀ (s : StoreState) (id : String) (px py : ℚ) (hole : Hole),
      s.config.holes.find? (fun h => h.id == id) = some hole →
      hole.diameter ≤ s.config.width →
      hole.diameter ≤ s.config.height →
      ∀ h1 ∈ (handleMouseMoveDrag id px py s).config.holes,
        (¬ h1.id = id → h1 ∈ s.config.holes) ∧
        (h1.id = id →
          h1.x = roundToTenth (max (hole.diameter / 2)
            (min (s.config.width - hole.diameter / 2) px)) ∧
          h1.y = roundToTenth (max (hole.diameter / 2)
            (min (s.config.height - hole.diameter / 2) py)) ∧
          hole.diameter / 2 - 1 / 20 ≤ h1.x ∧
          h1.x ≤ s.config.width - hole.diameter / 2 + 1 / 20 ∧
          hole.diameter / 2 - 1 / 20 ≤ h1.y ∧
          h1.y ≤ s.config.height - hole.diameter / 2 + 1 / 20)) ∧
    (∀ (s : StoreState) (hole : Hole) (x y d : ℚ),
      d ≤ s.config.width →
      d ≤ s.config.height →
      ∀ h1 ∈ (editorSaveStep hole x y d s).config.holes,
        (¬ h1.id = hole.id → h1 ∈ s.config.holes) ∧
        (h1.id = hole.id → h1.diameter = d ∧
          holeInBounds s.config.width s.config.height h1)) := by
  constructor
  · intro s id px py hole hfind hdw hdh h1 hmem
    unfold handleMouseMoveDrag at hmem
    rw [hfind] at hmem
    unfold handleHoleDrag updateHole at hmem
    simp only [List.mem_map] at hmem
    obtain ⟨h0, h0mem, rfl⟩ := hmem
    by_cases hid : h0.id = id
    · rw [if_pos hid]
      constructor
      · intro hno
        exact absurd hid (by simpa [applyUpdates] using hno)
      · intro _
        have hrw : hole.diameter / 2 ≤ s.config.width - hole.diameter / 2 := by linarith
        have hrh : hole.diameter / 2 ≤ s.config.height - hole.diameter / 2 := by linarith
        have hcx1 : hole.diameter / 2 ≤
            max (hole.diameter / 2) (min (s.config.width - hole.diameter / 2) px) :=
          le_max_left _ _
        have hcx2 : max (hole.diameter / 2) (min (s.config.width - hole.diameter / 2) px) ≤
            s.config.width - hole.diameter / 2 :=
          max_le hrw (min_le_left _ _)
        have hcy1 : hole.diameter / 2 ≤
            max (hole.diameter / 2) (min (s.config.height - hole.diameter / 2) py) :=
          le_max_left _ _
        have hcy2 : max (hole.diameter / 2) (min (s.config.height - hole.diameter / 2) py) ≤
            s.config.height - hole.diameter / 2 :=
          max_le hrh (min_le_left _ _)
        have hbx1 := sub_le_roundToTenth
          (max (hole.diameter / 2) (min (s.config.width - hole.diameter / 2) px))
        have hbx2 := roundToTenth_le_add
          (max (hole.diameter / 2) (min (s.config.width - hole.diameter / 2) px))
        have hby1 := sub_le_roundToTenth
          (max (hole.diameter / 2) (min (s.config.height - hole.diameter / 2) py))
        have hby2 := roundToTenth_le_add
          (max (hole.diameter / 2) (min (s.config.height - hole.diameter / 2) py))
        refine ⟨rfl, rfl, ?_, ?_, ?_, ?_⟩ <;>
          simp only [applyUpdates, Option.getD_some] <;> linarith
    · rw [if_neg hid]
      exact ⟨fun _ => h0mem, fun hyes => absurd hyes hid⟩
  · intro s hole x y d hdw hdh h1 hmem
    unfold editorSaveStep handleSave updateHole at hmem
    simp only [List.mem_map] at hmem
    obtain ⟨h0, h0mem, rfl⟩ := hmem
    by_cases hid : h0.id = hole.id
    · rw [if_pos hid]
      constructor
      · intro hno
        exact absurd hid (by simpa [applyUpdates] using hno)
      · intro _
        have hrw : d / 2 ≤ s.config.width - d / 2 := by linarith
        have hrh : d / 2 ≤ s.config.height - d / 2 := by linarith
        refine ⟨rfl, ?_, ?_, ?_, ?_⟩ <;>
          simp only [applyUpdates, Option.getD_some, holeInBounds]
        · exact le_max_left _ _
        · exact max_le hrw (min_le_left _ _)
        · exact le_max_left _ _
        · exact max_le hrh (min_le_left _ _)
    · rw [if_neg hid]
      exact ⟨fun _ => h0mem, fun hyes => absurd hyes hid⟩

/-- Witness for C2: on a concrete hundred-by-hundred part, dragging the
hole toward the origin lands it at four millimetres on each axis, within
the tolerated band. -/
theorem drag_and_save_clamp_witness :
    (⟨"w", 4, 4, 8⟩ : Hole).x ≤ (100 : ℚ) - 8 / 2 + 1 / 20 := by
  have hmain := drag_and_save_clamp.1 (sampleState 100 100 [⟨"w", 50, 50, 8⟩])
    "w" 0 0 ⟨"w", 50, 50, 8⟩ rfl (by norm_num [sampleState]) (by norm_num [sampleState])
    ⟨"w", 4, 4, 8⟩
    (by norm_num [handleMouseMoveDrag, List.find?, sampleState, handleHoleDrag,
      updateHole, applyUpdates, roundToTenth, jsRound])
  exact (hmain.2 rfl).2.2.2.1

/-- Claim C3, counterexample: with the rectangle config of width 440 and
height 600 and no holes, a first click at the pixel projecting to the
part-space point at one hundred millimetres on each axis adds one hole,
but a second click at the same coordinate hits that hole and selects it —
the hole count stays one, so the second click does not add a second
hole. -/
theorem second_click_counterexample :
    (handleClick 600 450 1 0 0 226 (305 / 3) "h1"
        (sampleState 440 600 [])).1.config.holes.length = 1 ∧
    (handleClick 600 450 1 0 0 226 (305 / 3) "h2"
        (handleClick 600 450 1 0 0 226 (305 / 3) "h1"
          (sampleState 440 600 [])).1).1.config.holes.length = 1 ∧
    (handleClick 600 450 1 0 0 226 (305 / 3) "h2"
        (handleClick 600 450 1 0 0 226 (305 / 3) "h1"
          (sampleState 440 600 [])).1).2 =
      ClickOutcome.holeSelected ⟨"h1", 100, 100, 8⟩ ∧
    (1 : ℕ) ≠ 2 := by
  have hfirst : handleClick 600 450 1 0 0 226 (305 / 3) "h1" (sampleState 440 600 []) =
      (sampleState 440 600 [⟨"h1", 100, 100, 8⟩],
       ClickOutcome.holeAdded ⟨"h1", 100, 100, 8⟩) := by
    norm_num [handleClick, findHoleAtPosition, List.find?, getScaleAndOffset,
      getPartCoordinates, handleCanvasClick, addHole, roundToTenth, jsRound, sampleState]
  rw [hfirst]
  refine ⟨by norm_num [sampleState], ?_, ?_, by norm_num⟩ <;>
    norm_num [handleClick, findHoleAtPosition, List.find?, holeHitTest,
      getScaleAndOffset, sampleState]

/-- Claim C3 as amended: a click whose part-space position is within the
part bounds and does not hit an existing hole appends one new hole with
the default diameter of eight millimetres at the clicked position rounded
to a tenth of a millimetre; in the concrete scenario the first click at
the part-space point at one hundred millimetres on each axis adds exactly
that hole, and a second click at the same coordinate hits the existing
hole and selects it for editing instead of adding another. -/
theorem click_add_hole :
    (∀ (cw ch zoom panX panY canvasX canvasY : ℚ) (newId : String) (s : StoreState),
      findHoleAtPosition s.config.holes
        (getScaleAndOffset s.config.width s.config.height cw ch zoom panX panY).scale
        (getScaleAndOffset s.config.width s.config.height cw ch zoom panX panY).offsetX
        (getScaleAndOffset s.config.width s.config.height cw ch zoom panX panY).offsetY
        canvasX canvasY = Option.none →
      (0 ≤ (getPartCoordinates s.config.width s.config.height cw ch zoom panX panY
              canvasX canvasY).1 ∧
        (getPartCoordinates s.config.width s.config.height cw ch zoom panX panY
              canvasX canvasY).1 ≤ s.config.width ∧
        0 ≤ (getPartCoordinates s.config.width s.config.height cw ch zoom panX panY
              canvasX canvasY).2 ∧
        (getPartCoordinates s.config.width s.config.height cw ch zoom panX panY
              canvasX canvasY).2 ≤ s.config.height) →
      handleClick cw ch zoom panX panY canvasX canvasY newId s =
        (addHole
          { id := newId
            x := roundToTenth (getPartCoordinates s.config.width s.config.height
              cw ch zoom panX panY canvasX canvasY).1
            y := roundToTenth (getPartCoordinates s.config.width s.config.height
              cw ch zoom panX panY canvasX canvasY).2
            diameter := 8 } s,
         ClickOutcome.holeAdded
          { id := newId
            x := roundToTenth (getPartCoordinates s.config.width s.config.height
              cw ch zoom panX panY canvasX canvasY).1
            y := roundToTenth (getPartCoordinates s.config.width s.config.height
              cw ch zoom panX panY canvasX canvasY).2
            diameter := 8 })) ∧
    (handleClick 600 450 1 0 0 226 (305 / 3) "h1" (sampleState 440 600 []) =
      (sampleState 440 600 [⟨"h1", 100, 100, 8⟩],
       ClickOutcome.holeAdded ⟨"h1", 100, 100, 8⟩)) ∧
    (handleClick 600 450 1 0 0 226 (305 / 3) "h2"
        (sampleState 440 600 [⟨"h1", 100, 100, 8⟩]) =
      (sampleState 440 600 [⟨"h1", 100, 100, 8⟩],
       ClickOutcome.holeSelected ⟨"h1", 100, 100, 8⟩)) := by
  refine ⟨?_, ?_, ?_⟩
  · intro cw ch zoom panX panY canvasX canvasY newId s hfind hbounds
    simp only [handleClick]
    rw [hfind, if_pos hbounds]
    rfl
  · norm_num [handleClick, findHoleAtPosition, List.find?, getScaleAndOffset,
      getPartCoordinates, handleCanvasClick, addHole, roundToTenth, jsRound, sampleState]
  · norm_num [handleClick, findHoleAtPosition, List.find?, holeHitTest,
      getScaleAndOffset, sampleState]

/-- Witness for C3: the first click of the scenario, obtained from the
general clause of the theorem at its concrete arguments. -/
theorem click_add_hole_witness :
    handleClick 600 450 1 0 0 226 (305 / 3) "h1" (sampleState 440 600 []) =
      (addHole ⟨"h1", 100, 100, 8⟩ (sampleState 440 600 []),
       ClickOutcome.holeAdded ⟨"h1", 100, 100, 8⟩) := by
  have hmain := click_add_hole.1 600 450 1 0 0 226 (305 / 3) "h1" (sampleState 440 600 [])
    rfl (by norm_num [getPartCoordinates, getScaleAndOffset, sampleState])
  rw [hmain]
  norm_num [getPartCoordinates, getScaleAndOffset, sampleState, roundToTenth, jsRound]

/-- Claim C5: at width 100, height 100 and corner radius 60, drawPart
feeds the corner radius into the rounded-rectangle path unclamped: the
path starts at the point sixty-zero and immediately draws the top edge
backwards to forty-zero (the tangent points of adjacent arcs cross, so
the arcs self-intersect), instead of using the clamped radius of fifty
required by the claim. -/
theorem rounded_rect_unclamped :
    drawRoundedRectPath 100 100 60 =
      [ PathCmd.moveTo 60 0,
        PathCmd.lineTo 40 0,
        PathCmd.arcTo 100 0 100 60 60,
        PathCmd.lineTo 100 40,
        PathCmd.arcTo 100 100 40 100 60,
        PathCmd.lineTo 60 100,
        PathCmd.arcTo 0 100 0 40 60,
        PathCmd.lineTo 0 60,
        PathCmd.arcTo 0 0 60 0 60 ] ∧
    ¬ (2 * (60 : ℚ) ≤ min 100 100) ∧
    (40 : ℚ) < 60 ∧
    specClampedCornerRadius 100 100 60 = 50 := by
  refine ⟨?_, by norm_num, by norm_num, by norm_num [specClampedCornerRadius]⟩
  norm_num [drawRoundedRectPath]

/-- Claim C6, counterexample: with width 100 and height 50, the Canvas
front-view renderer draws the circle with radius 25, not half the width;
and two configs differing only in height (50 against 200) get different
radii from that renderer. -/
theorem circle_height_counterexample :
    (canvasFrontCircle 100 50).radius ≠ (100 : ℚ) / 2 ∧
    (canvasFrontCircle 100 50).radius ≠ (canvasFrontCircle 100 200).radius := by
  constructor <;> norm_num [canvasFrontCircle]

/-- Claim C6 as amended: the interactive preview draws the Circle form
with pixel radius half the scaled width — independent of the height,
which only positions the centre — while the Canvas front-view renderer
draws it with radius half the smaller dimension, which equals half the
width only when the width does not exceed the height. -/
theorem circle_radius_by_renderer (w h1 h2 scale ox oy : ℚ) :
    (interactivePreviewCircle w h1 scale ox oy).radius =
      (interactivePreviewCircle w h2 scale ox oy).radius ∧
    (interactivePreviewCircle w h1 scale ox oy).radius = w * scale / 2 ∧
    (w ≤ h1 → (canvasFrontCircle w h1).radius = w / 2) ∧
    (h1 < w → (canvasFrontCircle w h1).radius = h1 / 2) := by
  refine ⟨rfl, rfl, ?_, ?_⟩
  · intro hwh
    simp [canvasFrontCircle, min_eq_left hwh]
  · intro hwh
    simp [canvasFrontCircle, min_eq_right hwh.le]

/-- Witness for C6: with width 100 and height 200 the Canvas front-view
radius is half the width. -/
theorem circle_radius_by_renderer_witness :
    (canvasFrontCircle 100 200).radius = (100 : ℚ) / 2 :=
  (circle_radius_by_renderer 100 200 300 1 0 0).2.2.1 (by norm_num)

/-- Claim C8: when the backend CAD request fails with a non-2xx response
or a network error, generateCADFiles returns the local fallback result:
a STEP skeleton holding the box's eight corner vertices and one comment
entry per hole, a DXF payload holding the rectangle outline and one
circle per hole shifted by half the dimensions with radius half the
diameter, and metadata copying the config's width, height, thickness,
material and hole count. -/
theorem cad_fallback_on_failure :
    ∀ (statusText message now : String) (config : PartConfig),
      generateCADFiles (BackendOutcome.httpError statusText) now config =
        generateCADFilesFallback now config ∧
      generateCADFiles (BackendOutcome.networkError message) now config =
        generateCADFilesFallback now config ∧
      (generateCADFilesFallback now config).stepFile.boxVertices =
        [ (0, 0, 0), (config.width, 0, 0), (config.width, config.height, 0),
          (0, config.height, 0), (0, 0, config.thickness),
          (config.width, 0, config.thickness),
          (config.width, config.height, config.thickness),
          (0, config.height, config.thickness) ] ∧
      (generateCADFilesFallback now config).stepFile.holeComments =
        config.holes.map (fun hole => (hole.diameter, hole.x, hole.y)) ∧
      (generateCADFilesFallback now config).dxfFile.outline =
        [ (-config.width / 2, -config.height / 2), (config.width / 2, -config.height / 2),
          (config.width / 2, config.height / 2), (-config.width / 2, config.height / 2) ] ∧
      (generateCADFilesFallback now config).dxfFile.circles =
        config.holes.map (fun hole =>
          ((hole.x - config.width / 2, hole.y - config.height / 2), hole.diameter / 2)) ∧
      (generateCADFilesFallback now config).metadata =
        { width := config.width
          height := config.height
          thickness := config.thickness
          material := config.material
          holeCount := config.holes.length
          generatedAt := now } := by
  intro statusText message now config
  exact ⟨rfl, rfl, rfl, rfl, rfl, rfl, rfl⟩

/-- Claim C9: for every store state and every target form, updateForm
empties the holes list while leaving width, height, thickness, material,
color and cornerRadius unchanged (and sets the form). -/
theorem updateForm_resets_holes :
    ∀ (s : StoreState) (f : FormType),
      (updateForm f s).config.holes = [] ∧
      (updateForm f s).config.form = f ∧
      (updateForm f s).config.width = s.config.width ∧
      (updateForm f s).config.height = s.config.height ∧
      (updateForm f s).config.thickness = s.config.thickness ∧
      (updateForm f s).config.material = s.config.material ∧
      (updateForm f s).config.color = s.config.color ∧
      (updateForm f s).config.cornerRadius = s.config.cornerRadius := by
  intro s f
  exact ⟨rfl, rfl, rfl, rfl, rfl, rfl, rfl, rfl⟩

/-- Claim C10: addHole appends the given hole verbatim — no clamping, no
diameter or id check — leaving every other config field and the rest of
the store unchanged; and the corner-holes helper, called with a distance
from edge of 150 on a hundred-by-hundred part, inserts holes lying
outside the part. -/
theorem addHole_no_validation :
    (∀ (s : StoreState) (h : Hole),
      (addHole h s).config.holes = s.config.holes ++ [h] ∧
      (addHole h s).config.form = s.config.form ∧
      (addHole h s).config.width = s.config.width ∧
      (addHole h s).config.height = s.config.height ∧
      (addHole h s).config.thickness = s.config.thickness ∧
      (addHole h s).config.material = s.config.material ∧
      (addHole h s).config.color = s.config.color ∧
      (addHole h s).config.cornerRadius = s.config.cornerRadius ∧
      (addHole h s).config.customPoints = s.config.customPoints ∧
      (addHole h s).customShapeFinalized = s.customShapeFinalized) ∧
    ((createCornerHoles "t" 150 5 (sampleState 100 100 [])).config.holes =
      [⟨"t-tl", 150, 150, 5⟩, ⟨"t-tr", -50, 150, 5⟩, ⟨"t-bl", 150, -50, 5⟩,
       ⟨"t-br", -50, -50, 5⟩] ∧
     ¬ holeInBounds 100 100 (⟨"t-tl", 150, 150, 5⟩ : Hole)) := by
  constructor
  · intro s h
    exact ⟨rfl, rfl, rfl, rfl, rfl, rfl, rfl, rfl, rfl, rfl⟩
  · constructor
    · norm_num [createCornerHoles, removeAllHoles, addHole, sampleState]
      decide
    · norm_num [holeInBounds]

end PlasticConfig
